import Mathlib

/-!
Shallow embedding of the ink! fungible-token contract in src/lib.rs
(module a1Token, storage struct A1Token), together with proofs of the
ledger's functional and invariant properties.

Modelling conventions:
* AccountId is an opaque comparable identity; we use Nat.
* u32 values are Nat with u32 (release-profile) wrapping semantics:
  every addition the source performs on a u32 is taken modulo
  U32 = 2^32, and the one unguarded subtraction the source performs
  (total_supply -= amount in burn) is u32 wrapping subtraction.
  Subtractions guarded by a prior >= check cannot wrap and are plain
  Nat subtraction.  Amount arguments arrive as u32, i.e. are < U32;
  Op.wf records this where a proof needs it.
* ink_storage::Mapping is a total function into Option, absent keys
  giving none; Mapping::insert overwrites; the reads default absent
  keys to 0 exactly as the source's match expressions do.
* env().caller() is threaded as an explicit first argument to every
  message, since the runtime supplies it with each call.
* emit_event does not touch contract storage and no claim below is
  about the event stream, so events are not modelled.
* A message that returns Err leaves storage untouched (every source
  message performs all of its checks before its first insert), so the
  one-call runtime transition stepOp keeps the pre-state on error.
-/

/-- Account identities: opaque and comparable (source: AccountId). -/
abbrev AccountId := Nat

/-- 2^32, the modulus of u32 arithmetic. -/
def U32 : Nat := 4294967296

/-- ink_storage::Mapping: key-value store; reading an absent key gives none. -/
def Mapping (K V : Type) := K → Option V

/-- Mapping::get. -/
def Mapping.get {K V : Type} (m : Mapping K V) (k : K) : Option V := m k

/-- Mapping::insert (overwrites any previous value). -/
def Mapping.insert {K V : Type} [DecidableEq K] (m : Mapping K V) (k : K) (v : V) :
    Mapping K V :=
  fun x => if x = k then some v else m x

/-- Contract storage struct A1Token (src/lib.rs lines 11-17). -/
structure A1Token where
  total_supply : Nat
  balances : Mapping AccountId Nat
  allowances : Mapping (AccountId × AccountId) Nat
  mint_authority : AccountId

/-- The contract's error type (src/lib.rs lines 40-45). -/
inductive Error where
  | InsufficientBalance
  | InsufficientAllowance
  | Unauthorized
  deriving DecidableEq, Repr

/-- The contract's result type (src/lib.rs line 48). -/
abbrev Result (α : Type) := Except Error α

/-- Constructor new_token (src/lib.rs lines 53-66): stores the initial
supply as the balance of the creating caller, sets total_supply to it and
makes the caller the mint authority. -/
def new_token (caller : AccountId) (initial_supply : Nat) : A1Token :=
  { total_supply := initial_supply
    balances := Mapping.insert (fun _ => none) caller initial_supply
    allowances := fun _ => none
    mint_authority := caller }

/-- Message balance_of (src/lib.rs lines 76-81): stored balance, 0 if absent. -/
def A1Token.balance_of (self : A1Token) (account : AccountId) : Nat :=
  match self.balances.get account with
  | some value => value
  | none => 0

/-- Message get_current_authority (src/lib.rs lines 85-87). -/
def A1Token.get_current_authority (self : A1Token) : AccountId :=
  self.mint_authority

/-- Message allowance (src/lib.rs lines 127-132): stored allowance, 0 if absent. -/
def A1Token.allowance (self : A1Token) (owner spender : AccountId) : Nat :=
  match self.allowances.get (owner, spender) with
  | some value => value
  | none => 0

/-- Message transfer_from_to (src/lib.rs lines 98-112): check the sender
balance, debit the sender, then read and credit the recipient (the
recipient read happens after the sender write, which is what makes
self-transfer balance preserving); the credit is a u32 addition and so
wraps modulo U32. -/
def A1Token.transfer_from_to (self : A1Token) (sender recipient : AccountId)
    (amount : Nat) : Result A1Token :=
  let sender_balance := self.balance_of sender
  if sender_balance < amount then
    .error .InsufficientBalance
  else
    let self1 : A1Token :=
      { self with balances := self.balances.insert sender (sender_balance - amount) }
    let recipient_balance := self1.balance_of recipient
    .ok { self1 with
          balances := self1.balances.insert recipient ((recipient_balance + amount) % U32) }

/-- Message transfer (src/lib.rs lines 91-94): transfer_from_to with the
environment-supplied caller as the debited account. -/
def A1Token.transfer (self : A1Token) (caller recipient : AccountId) (amount : Nat) :
    Result A1Token :=
  self.transfer_from_to caller recipient amount

/-- Message approve (src/lib.rs lines 115-124): unconditional overwrite of
allowances[(caller, spender)]. -/
def A1Token.approve (self : A1Token) (caller spender : AccountId) (amount : Nat) :
    Result A1Token :=
  .ok { self with allowances := self.allowances.insert (caller, spender) amount }

/-- Message transfer_from (src/lib.rs lines 135-144): allowance check, then
the balance move, then the allowance decrement; the decrement only happens
when the move succeeded (the ? operator propagates the move's error before
the allowance insert). -/
def A1Token.transfer_from (self : A1Token) (caller sender recipient : AccountId)
    (amount : Nat) : Result A1Token :=
  let al := self.allowance sender caller
  if al < amount then
    .error .InsufficientAllowance
  else
    match self.transfer_from_to sender recipient amount with
    | .error e => .error e
    | .ok self1 =>
        .ok { self1 with allowances := self1.allowances.insert (sender, caller) (al - amount) }

/-- Message mint (src/lib.rs lines 148-157): authority gated; both the
balance credit and the supply increase are u32 additions (wrap modulo U32). -/
def A1Token.mint (self : A1Token) (caller : AccountId) (amount : Nat) : Result A1Token :=
  if caller ≠ self.mint_authority then
    .error .Unauthorized
  else
    let sender_balance := self.balance_of caller
    let self1 : A1Token :=
      { self with balances := self.balances.insert caller ((sender_balance + amount) % U32) }
    .ok { self1 with total_supply := (self1.total_supply + amount) % U32 }

/-- Message burn (src/lib.rs lines 161-170): balance gated; the balance
debit is guarded, the supply decrement is an unguarded u32 subtraction,
modelled as wrapping subtraction (equal to plain subtraction whenever
amount <= total_supply < U32). -/
def A1Token.burn (self : A1Token) (caller : AccountId) (amount : Nat) : Result A1Token :=
  let sender_balance := self.balance_of caller
  if sender_balance < amount then
    .error .InsufficientBalance
  else
    let self1 : A1Token :=
      { self with balances := self.balances.insert caller (sender_balance - amount) }
    .ok { self1 with total_supply := (self1.total_supply + U32 - amount) % U32 }

/-- Message transfer_authority (src/lib.rs lines 174-181). -/
def A1Token.transfer_authority (self : A1Token) (caller new_owner : AccountId) :
    Result A1Token :=
  if caller ≠ self.mint_authority then
    .error .Unauthorized
  else
    .ok { self with mint_authority := new_owner }

/-- One contract call together with its environment-supplied caller. -/
inductive Op where
  | transfer (caller recipient : AccountId) (amount : Nat)
  | transfer_from_to (caller sender recipient : AccountId) (amount : Nat)
  | approve (caller spender : AccountId) (amount : Nat)
  | transfer_from (caller sender recipient : AccountId) (amount : Nat)
  | mint (caller : AccountId) (amount : Nat)
  | burn (caller : AccountId) (amount : Nat)
  | transfer_authority (caller new_owner : AccountId)

/-- Dispatch a call; the transfer_from_to message never reads its caller,
exactly as the source message body does not. -/
def Op.run (self : A1Token) : Op → Result A1Token
  | .transfer caller recipient amount => self.transfer caller recipient amount
  | .transfer_from_to _caller sender recipient amount =>
      self.transfer_from_to sender recipient amount
  | .approve caller spender amount => self.approve caller spender amount
  | .transfer_from caller sender recipient amount =>
      self.transfer_from caller sender recipient amount
  | .mint caller amount => self.mint caller amount
  | .burn caller amount => self.burn caller amount
  | .transfer_authority caller new_owner => self.transfer_authority caller new_owner

/-- One runtime transition: a failed call leaves storage unchanged (every
message performs all checks before its first write). -/
def stepOp (self : A1Token) (op : Op) : A1Token :=
  match op.run self with
  | .ok next => next
  | .error _ => self

/-- The state after constructing with new_token and running a call sequence. -/
def execTrace (creator : AccountId) (initial_supply : Nat) (ops : List Op) : A1Token :=
  (ops.foldl stepOp (new_token creator initial_supply) : A1Token)

/-- The account identities a call mentions. -/
def Op.accounts : Op → List AccountId
  | .transfer caller recipient _ => [caller, recipient]
  | .transfer_from_to caller sender recipient _ => [caller, sender, recipient]
  | .approve caller spender _ => [caller, spender]
  | .transfer_from caller sender recipient _ => [caller, sender, recipient]
  | .mint caller _ => [caller]
  | .burn caller _ => [caller]
  | .transfer_authority caller new_owner => [caller, new_owner]

/-- The call's amount argument fits in u32 (the ABI type of amount). -/
def Op.wf : Op → Bool
  | .transfer _ _ amount => amount < U32
  | .transfer_from_to _ _ _ amount => amount < U32
  | .approve _ _ amount => amount < U32
  | .transfer_from _ _ _ amount => amount < U32
  | .mint _ amount => amount < U32
  | .burn _ amount => amount < U32
  | .transfer_authority _ _ => true

/-- All accounts that ever appeared: the creator plus every account any
call of the trace mentions, each listed once. -/
def appeared (creator : AccountId) (ops : List Op) : List AccountId :=
  (creator :: (ops.map Op.accounts).flatten).dedup

/-- Sum of balance_of over a list of accounts. -/
def balSum (self : A1Token) (L : List AccountId) : Nat :=
  (L.map self.balance_of).sum


/-! ### Pointwise reading lemmas

Reads of storage normalize to readBal and readAllow applied to the raw
maps, which turns every post-state read into an if-cascade over the
pre-state reads. -/

/-- What balance_of computes from a raw balances map. -/
def readBal (bs : Mapping AccountId Nat) (b : AccountId) : Nat :=
  match bs.get b with
  | some value => value
  | none => 0

/-- What allowance computes from a raw allowances map. -/
def readAllow (al : Mapping (AccountId × AccountId) Nat)
    (p : AccountId × AccountId) : Nat :=
  match al.get p with
  | some value => value
  | none => 0

theorem balance_of_eq_readBal (self : A1Token) (b : AccountId) :
    self.balance_of b = readBal self.balances b := rfl

theorem allowance_eq_readAllow (self : A1Token) (o s : AccountId) :
    self.allowance o s = readAllow self.allowances (o, s) := rfl

theorem balance_of_congr {f g : A1Token} (h : f.balances = g.balances) (b : AccountId) :
    f.balance_of b = g.balance_of b := by
  simp only [balance_of_eq_readBal, h]

theorem allowance_congr {f g : A1Token} (h : f.allowances = g.allowances)
    (o s : AccountId) : f.allowance o s = g.allowance o s := by
  simp only [allowance_eq_readAllow, h]

theorem readBal_insert (bs : Mapping AccountId Nat) (k : AccountId) (v : Nat)
    (b : AccountId) :
    readBal (bs.insert k v) b = if b = k then v else readBal bs b := by
  simp only [readBal, Mapping.get, Mapping.insert]
  by_cases h : b = k <;> simp [h]

theorem readAllow_insert (al : Mapping (AccountId × AccountId) Nat)
    (p : AccountId × AccountId) (v : Nat) (q : AccountId × AccountId) :
    readAllow (al.insert p v) q = if q = p then v else readAllow al q := by
  simp only [readAllow, Mapping.get, Mapping.insert]
  by_cases h : q = p <;> simp [h]

theorem readBal_empty (b : AccountId) : readBal (fun _ => none) b = 0 := rfl

theorem readAllow_empty (q : AccountId × AccountId) :
    readAllow (fun _ => none) q = 0 := rfl

theorem balance_of_new_token (caller : AccountId) (v : Nat) (b : AccountId) :
    (new_token caller v).balance_of b = if b = caller then v else 0 := by
  simp only [balance_of_eq_readBal, new_token, readBal_insert, readBal_empty]

theorem allowance_new_token (caller : AccountId) (v : Nat) (o s : AccountId) :
    (new_token caller v).allowance o s = 0 := by
  simp only [allowance_eq_readAllow, new_token, readAllow_empty]

/-! ### Success and error equations for each message -/

theorem transfer_from_to_err (self : A1Token) (s r : AccountId) (a : Nat)
    (h : self.balance_of s < a) :
    self.transfer_from_to s r a = .error .InsufficientBalance := by
  simp [A1Token.transfer_from_to, h]

theorem transfer_from_to_isOk (self : A1Token) (s r : AccountId) (a : Nat)
    (ha : a ≤ self.balance_of s) :
    ∃ next, self.transfer_from_to s r a = .ok next :=
  ⟨_, by
    simp only [A1Token.transfer_from_to]
    rw [if_neg (not_lt.mpr ha)]⟩

theorem transfer_from_to_dest (self next : A1Token) (s r : AccountId) (a : Nat)
    (hok : self.transfer_from_to s r a = .ok next) :
    a ≤ self.balance_of s
    ∧ (∀ b, next.balance_of b =
        if b = r then ((if r = s then self.balance_of s - a else self.balance_of r) + a) % U32
        else if b = s then self.balance_of s - a
        else self.balance_of b)
    ∧ next.total_supply = self.total_supply
    ∧ next.allowances = self.allowances
    ∧ next.mint_authority = self.mint_authority := by
  by_cases hlt : self.balance_of s < a
  · rw [transfer_from_to_err self s r a hlt] at hok
    exact absurd hok (by simp)
  · simp only [A1Token.transfer_from_to] at hok
    rw [if_neg hlt] at hok
    injection hok with hok
    subst hok
    refine ⟨not_lt.mp hlt, ?_, rfl, rfl, rfl⟩
    intro b
    simp only [balance_of_eq_readBal, readBal_insert]

theorem approve_isOk (self : A1Token) (caller spender : AccountId) (amount : Nat) :
    ∃ next, self.approve caller spender amount = .ok next :=
  ⟨_, rfl⟩

theorem approve_dest (self next : A1Token) (caller spender : AccountId) (amount : Nat)
    (hok : self.approve caller spender amount = .ok next) :
    (∀ o s, next.allowance o s =
        if (o, s) = (caller, spender) then amount else self.allowance o s)
    ∧ next.balances = self.balances
    ∧ next.total_supply = self.total_supply
    ∧ next.mint_authority = self.mint_authority := by
  simp only [A1Token.approve] at hok
  injection hok with hok
  subst hok
  refine ⟨?_, rfl, rfl, rfl⟩
  intro o s
  simp only [allowance_eq_readAllow, readAllow_insert]

theorem transfer_from_err_allowance (self : A1Token) (caller sender recipient : AccountId)
    (amount : Nat) (h : self.allowance sender caller < amount) :
    self.transfer_from caller sender recipient amount = .error .InsufficientAllowance := by
  simp [A1Token.transfer_from, h]

theorem transfer_from_err_balance (self : A1Token) (caller sender recipient : AccountId)
    (amount : Nat) (hal : amount ≤ self.allowance sender caller)
    (h : self.balance_of sender < amount) :
    self.transfer_from caller sender recipient amount = .error .InsufficientBalance := by
  simp only [A1Token.transfer_from]
  rw [if_neg (not_lt.mpr hal), transfer_from_to_err self sender recipient amount h]

theorem transfer_from_isOk (self : A1Token) (caller sender recipient : AccountId)
    (amount : Nat) (hal : amount ≤ self.allowance sender caller)
    (hbal : amount ≤ self.balance_of sender) :
    ∃ next, self.transfer_from caller sender recipient amount = .ok next := by
  obtain ⟨mid, hmid⟩ := transfer_from_to_isOk self sender recipient amount hbal
  exact ⟨_, by
    simp only [A1Token.transfer_from]
    rw [if_neg (not_lt.mpr hal), hmid]⟩

theorem transfer_from_dest (self next : A1Token) (caller sender recipient : AccountId)
    (amount : Nat)
    (hok : self.transfer_from caller sender recipient amount = .ok next) :
    amount ≤ self.allowance sender caller
    ∧ amount ≤ self.balance_of sender
    ∧ (∀ b, next.balance_of b =
        if b = recipient then
          ((if recipient = sender then self.balance_of sender - amount
            else self.balance_of recipient) + amount) % U32
        else if b = sender then self.balance_of sender - amount
        else self.balance_of b)
    ∧ (∀ o s, next.allowance o s =
        if (o, s) = (sender, caller) then self.allowance sender caller - amount
        else self.allowance o s)
    ∧ next.total_supply = self.total_supply
    ∧ next.mint_authority = self.mint_authority := by
  by_cases h1 : self.allowance sender caller < amount
  · rw [transfer_from_err_allowance self caller sender recipient amount h1] at hok
    exact absurd hok (by simp)
  · by_cases h2 : self.balance_of sender < amount
    · rw [transfer_from_err_balance self caller sender recipient amount (not_lt.mp h1) h2] at hok
      exact absurd hok (by simp)
    · obtain ⟨mid, hmid⟩ := transfer_from_to_isOk self sender recipient amount (not_lt.mp h2)
      obtain ⟨-, hb, hts, hal2, hau⟩ :=
        transfer_from_to_dest self mid sender recipient amount hmid
      simp only [A1Token.transfer_from] at hok
      rw [if_neg h1, hmid] at hok
      injection hok with hok
      subst hok
      refine ⟨not_lt.mp h1, not_lt.mp h2, ?_, ?_, hts, hau⟩
      · intro b
        simp only [balance_of_eq_readBal] at hb ⊢
        exact hb b
      · intro o s
        simp only [allowance_eq_readAllow, readAllow_insert, hal2]

theorem mint_err (self : A1Token) (caller : AccountId) (amount : Nat)
    (h : caller ≠ self.mint_authority) :
    self.mint caller amount = .error .Unauthorized := by
  simp [A1Token.mint, h]

theorem mint_isOk (self : A1Token) (caller : AccountId) (amount : Nat)
    (h : caller = self.mint_authority) :
    ∃ next, self.mint caller amount = .ok next :=
  ⟨_, by
    simp only [A1Token.mint]
    rw [if_neg (not_not_intro h)]⟩

theorem mint_dest (self next : A1Token) (caller : AccountId) (amount : Nat)
    (hok : self.mint caller amount = .ok next) :
    caller = self.mint_authority
    ∧ (∀ b, next.balance_of b =
        if b = caller then (self.balance_of caller + amount) % U32 else self.balance_of b)
    ∧ next.total_supply = (self.total_supply + amount) % U32
    ∧ next.allowances = self.allowances
    ∧ next.mint_authority = self.mint_authority := by
  by_cases h : caller ≠ self.mint_authority
  · rw [mint_err self caller amount h] at hok
    exact absurd hok (by simp)
  · simp only [A1Token.mint] at hok
    rw [if_neg h] at hok
    injection hok with hok
    subst hok
    refine ⟨not_not.mp h, ?_, rfl, rfl, rfl⟩
    intro b
    simp only [balance_of_eq_readBal, readBal_insert]

theorem burn_err (self : A1Token) (caller : AccountId) (amount : Nat)
    (h : self.balance_of caller < amount) :
    self.burn caller amount = .error .InsufficientBalance := by
  simp [A1Token.burn, h]

theorem burn_isOk (self : A1Token) (caller : AccountId) (amount : Nat)
    (h : amount ≤ self.balance_of caller) :
    ∃ next, self.burn caller amount = .ok next :=
  ⟨_, by
    simp only [A1Token.burn]
    rw [if_neg (not_lt.mpr h)]⟩

theorem burn_dest (self next : A1Token) (caller : AccountId) (amount : Nat)
    (hok : self.burn caller amount = .ok next) :
    amount ≤ self.balance_of caller
    ∧ (∀ b, next.balance_of b =
        if b = caller then self.balance_of caller - amount else self.balance_of b)
    ∧ next.total_supply = (self.total_supply + U32 - amount) % U32
    ∧ next.allowances = self.allowances
    ∧ next.mint_authority = self.mint_authority := by
  by_cases hlt : self.balance_of caller < amount
  · rw [burn_err self caller amount hlt] at hok
    exact absurd hok (by simp)
  · simp only [A1Token.burn] at hok
    rw [if_neg hlt] at hok
    injection hok with hok
    subst hok
    refine ⟨not_lt.mp hlt, ?_, rfl, rfl, rfl⟩
    intro b
    simp only [balance_of_eq_readBal, readBal_insert]

theorem transfer_authority_err (self : A1Token) (caller new_owner : AccountId)
    (h : caller ≠ self.mint_authority) :
    self.transfer_authority caller new_owner = .error .Unauthorized := by
  simp [A1Token.transfer_authority, h]

theorem transfer_authority_isOk (self : A1Token) (caller new_owner : AccountId)
    (h : caller = self.mint_authority) :
    ∃ next, self.transfer_authority caller new_owner = .ok next :=
  ⟨_, by
    simp only [A1Token.transfer_authority]
    rw [if_neg (not_not_intro h)]⟩

theorem transfer_authority_dest (self next : A1Token) (caller new_owner : AccountId)
    (hok : self.transfer_authority caller new_owner = .ok next) :
    caller = self.mint_authority
    ∧ next.mint_authority = new_owner
    ∧ next.balances = self.balances
    ∧ next.allowances = self.allowances
    ∧ next.total_supply = self.total_supply := by
  by_cases h : caller ≠ self.mint_authority
  · rw [transfer_authority_err self caller new_owner h] at hok
    exact absurd hok (by simp)
  · simp only [A1Token.transfer_authority] at hok
    rw [if_neg h] at hok
    injection hok with hok
    subst hok
    exact ⟨not_not.mp h, rfl, rfl, rfl, rfl⟩

theorem stepOp_err (self : A1Token) (op : Op) (e : Error) (h : op.run self = .error e) :
    stepOp self op = self := by
  unfold stepOp
  rw [h]

theorem stepOp_ok (self next : A1Token) (op : Op) (h : op.run self = .ok next) :
    stepOp self op = next := by
  unfold stepOp
  rw [h]

/-! ### Balance sums over account lists -/

theorem balSum_nil (self : A1Token) : balSum self [] = 0 := rfl

theorem balSum_cons (self : A1Token) (x : AccountId) (xs : List AccountId) :
    balSum self (x :: xs) = self.balance_of x + balSum self xs := by
  simp [balSum]

theorem balSum_congr {f g : A1Token} :
    ∀ L : List AccountId, (∀ a ∈ L, f.balance_of a = g.balance_of a) →
      balSum f L = balSum g L := by
  intro L
  induction L with
  | nil => intro _; rfl
  | cons x xs ih =>
    intro h
    rw [balSum_cons, balSum_cons, h x (List.mem_cons_self x xs),
      ih fun a ha => h a (List.mem_cons_of_mem x ha)]

theorem balance_of_le_balSum (self : A1Token) :
    ∀ L : List AccountId, ∀ a ∈ L, self.balance_of a ≤ balSum self L := by
  intro L
  induction L with
  | nil => intro a ha; cases ha
  | cons x xs ih =>
    intro a ha
    rw [balSum_cons]
    rcases List.mem_cons.mp ha with h | h
    · subst h; omega
    · have := ih a h; omega

theorem balSum_update {f g : A1Token} (k : AccountId) (v : Nat)
    (hg : ∀ b, g.balance_of b = if b = k then v else f.balance_of b) :
    ∀ L : List AccountId, L.Nodup → k ∈ L →
      balSum g L + f.balance_of k = balSum f L + v := by
  intro L
  induction L with
  | nil => intro _ hk; cases hk
  | cons x xs ih =>
    intro hL hk
    have hx : x ∉ xs := (List.nodup_cons.mp hL).1
    have hxs : xs.Nodup := (List.nodup_cons.mp hL).2
    rcases List.mem_cons.mp hk with h | h
    · subst h
      have h1 : g.balance_of k = v := by rw [hg k, if_pos rfl]
      have h2 : balSum g xs = balSum f xs := by
        refine (balSum_congr xs fun a ha => ?_).symm
        rw [hg a, if_neg (fun e : a = k => hx (show k ∈ xs from e ▸ ha))]
      rw [balSum_cons, balSum_cons, h1, h2]
      omega
    · have hkx : k ≠ x := fun e => hx (e ▸ h)
      have h1 : g.balance_of x = f.balance_of x := by
        rw [hg x, if_neg (Ne.symm hkx)]
      have := ih hxs h
      rw [balSum_cons, balSum_cons, h1]
      omega

theorem balSum_eq_zero (self : A1Token) :
    ∀ L : List AccountId, (∀ a ∈ L, self.balance_of a = 0) → balSum self L = 0 := by
  intro L
  induction L with
  | nil => intro _; rfl
  | cons x xs ih =>
    intro h
    rw [balSum_cons, h x (List.mem_cons_self x xs),
      ih fun a ha => h a (List.mem_cons_of_mem x ha)]

theorem balSum_new_token (caller : AccountId) (v : Nat) :
    ∀ L : List AccountId, L.Nodup → caller ∈ L →
      balSum (new_token caller v) L = v := by
  intro L
  induction L with
  | nil => intro _ hc; cases hc
  | cons x xs ih =>
    intro hL hc
    have hx : x ∉ xs := (List.nodup_cons.mp hL).1
    have hxs : xs.Nodup := (List.nodup_cons.mp hL).2
    rcases List.mem_cons.mp hc with h | h
    · subst h
      rw [balSum_cons, balance_of_new_token, if_pos rfl,
        balSum_eq_zero (new_token caller v) xs fun a ha => by
          rw [balance_of_new_token, if_neg (fun e : a = caller => hx (show caller ∈ xs from e ▸ ha))]]
      omega
    · have hcx : caller ≠ x := fun e => hx (e ▸ h)
      rw [balSum_cons, balance_of_new_token, if_neg (Ne.symm hcx), ih hxs h]
      omega

/-! ### The conservation invariant -/

/-- The ledger invariant relative to a list L of accounts covering every
account ever written: total_supply is the u32 reduction of the exact sum of
balances over L, and accounts outside L hold balance 0. -/
def LedgerInv (self : A1Token) (L : List AccountId) : Prop :=
  self.total_supply = balSum self L % U32 ∧ ∀ a, a ∉ L → self.balance_of a = 0

theorem LedgerInv_move (self next : A1Token) (L : List AccountId) (hL : L.Nodup)
    (s r : AccountId) (hs : s ∈ L) (hr : r ∈ L) (a : Nat) (ha : a ≤ self.balance_of s)
    (hb : ∀ b, next.balance_of b =
        if b = r then ((if r = s then self.balance_of s - a else self.balance_of r) + a) % U32
        else if b = s then self.balance_of s - a
        else self.balance_of b)
    (hts : next.total_supply = self.total_supply)
    (hinv : LedgerInv self L) : LedgerInv next L := by
  have hmidb : ∀ b,
      ({ self with balances := self.balances.insert s (self.balance_of s - a) } : A1Token).balance_of b
        = if b = s then self.balance_of s - a else self.balance_of b := by
    intro b
    simp only [balance_of_eq_readBal, readBal_insert]
  have h1 := balSum_update s (self.balance_of s - a) hmidb L hL hs
  have hnextb : ∀ b, next.balance_of b =
      if b = r then
        (({ self with balances := self.balances.insert s (self.balance_of s - a) } : A1Token).balance_of r + a) % U32
      else ({ self with balances := self.balances.insert s (self.balance_of s - a) } : A1Token).balance_of b := by
    intro b
    rw [hb b, hmidb r, hmidb b]
  have h2 := balSum_update r
    ((({ self with balances := self.balances.insert s (self.balance_of s - a) } : A1Token).balance_of r + a) % U32)
    hnextb L hL hr
  have h3 := balance_of_le_balSum
    ({ self with balances := self.balances.insert s (self.balance_of s - a) } : A1Token) L r hr
  have h4 := balance_of_le_balSum self L s hs
  constructor
  · rw [hts, hinv.1]
    have hU : U32 = 4294967296 := rfl
    rw [hU] at h2 ⊢
    omega
  · intro b hout
    rw [hb b, if_neg (fun e : b = r => hout (show b ∈ L from e.symm ▸ hr)),
      if_neg (fun e : b = s => hout (show b ∈ L from e.symm ▸ hs))]
    exact hinv.2 b hout

theorem LedgerInv_samebal (self next : A1Token) (L : List AccountId)
    (hb : ∀ b, next.balance_of b = self.balance_of b)
    (hts : next.total_supply = self.total_supply)
    (hinv : LedgerInv self L) : LedgerInv next L := by
  constructor
  · rw [hts, hinv.1, balSum_congr L fun a _ => hb a]
  · intro b hout
    rw [hb b]
    exact hinv.2 b hout

theorem LedgerInv_mint (self next : A1Token) (L : List AccountId) (hL : L.Nodup)
    (caller : AccountId) (hc : caller ∈ L) (amount : Nat)
    (hb : ∀ b, next.balance_of b =
        if b = caller then (self.balance_of caller + amount) % U32 else self.balance_of b)
    (hts : next.total_supply = (self.total_supply + amount) % U32)
    (hinv : LedgerInv self L) : LedgerInv next L := by
  have h1 := balSum_update caller ((self.balance_of caller + amount) % U32) hb L hL hc
  have h4 := balance_of_le_balSum self L caller hc
  constructor
  · rw [hts, hinv.1]
    have hU : U32 = 4294967296 := rfl
    rw [hU] at h1 ⊢
    omega
  · intro b hout
    rw [hb b, if_neg (fun e : b = caller => hout (show b ∈ L from e.symm ▸ hc))]
    exact hinv.2 b hout

theorem LedgerInv_burn (self next : A1Token) (L : List AccountId) (hL : L.Nodup)
    (caller : AccountId) (hc : caller ∈ L) (amount : Nat)
    (hwa : amount < U32) (ha : amount ≤ self.balance_of caller)
    (hb : ∀ b, next.balance_of b =
        if b = caller then self.balance_of caller - amount else self.balance_of b)
    (hts : next.total_supply = (self.total_supply + U32 - amount) % U32)
    (hinv : LedgerInv self L) : LedgerInv next L := by
  have h1 := balSum_update caller (self.balance_of caller - amount) hb L hL hc
  have h4 := balance_of_le_balSum self L caller hc
  constructor
  · rw [hts, hinv.1]
    have hU : U32 = 4294967296 := rfl
    rw [hU] at hwa ⊢
    omega
  · intro b hout
    rw [hb b, if_neg (fun e : b = caller => hout (show b ∈ L from e.symm ▸ hc))]
    exact hinv.2 b hout

theorem LedgerInv_stepOp (self : A1Token) (L : List AccountId) (op : Op) (hL : L.Nodup)
    (hwf : op.wf = true) (hacc : ∀ a ∈ op.accounts, a ∈ L) (hinv : LedgerInv self L) :
    LedgerInv (stepOp self op) L := by
  cases hrun : op.run self with
  | error e => rw [stepOp_err self op e hrun]; exact hinv
  | ok next =>
    rw [stepOp_ok self next op hrun]
    cases op with
    | transfer caller recipient amount =>
      simp only [Op.run, A1Token.transfer] at hrun
      obtain ⟨ha, hb, hts, -, -⟩ := transfer_from_to_dest self next caller recipient amount hrun
      exact LedgerInv_move self next L hL caller recipient
        (hacc caller (by simp [Op.accounts])) (hacc recipient (by simp [Op.accounts]))
        amount ha hb hts hinv
    | transfer_from_to c sender recipient amount =>
      simp only [Op.run] at hrun
      obtain ⟨ha, hb, hts, -, -⟩ := transfer_from_to_dest self next sender recipient amount hrun
      exact LedgerInv_move self next L hL sender recipient
        (hacc sender (by simp [Op.accounts])) (hacc recipient (by simp [Op.accounts]))
        amount ha hb hts hinv
    | approve caller spender amount =>
      simp only [Op.run] at hrun
      obtain ⟨-, hbs, hts, -⟩ := approve_dest self next caller spender amount hrun
      exact LedgerInv_samebal self next L (fun b => balance_of_congr hbs b) hts hinv
    | transfer_from caller sender recipient amount =>
      simp only [Op.run] at hrun
      obtain ⟨-, ha, hb, -, hts, -⟩ :=
        transfer_from_dest self next caller sender recipient amount hrun
      exact LedgerInv_move self next L hL sender recipient
        (hacc sender (by simp [Op.accounts])) (hacc recipient (by simp [Op.accounts]))
        amount ha hb hts hinv
    | mint caller amount =>
      simp only [Op.run] at hrun
      obtain ⟨-, hb, hts, -, -⟩ := mint_dest self next caller amount hrun
      exact LedgerInv_mint self next L hL caller (hacc caller (by simp [Op.accounts]))
        amount hb hts hinv
    | burn caller amount =>
      simp only [Op.run] at hrun
      have hwa : amount < U32 := by simpa [Op.wf] using hwf
      obtain ⟨ha, hb, hts, -, -⟩ := burn_dest self next caller amount hrun
      exact LedgerInv_burn self next L hL caller (hacc caller (by simp [Op.accounts]))
        amount hwa ha hb hts hinv
    | transfer_authority caller new_owner =>
      simp only [Op.run] at hrun
      obtain ⟨-, -, hbs, -, hts⟩ := transfer_authority_dest self next caller new_owner hrun
      exact LedgerInv_samebal self next L (fun b => balance_of_congr hbs b) hts hinv

theorem LedgerInv_foldl (L : List AccountId) (hL : L.Nodup) :
    ∀ ops : List Op, (∀ op ∈ ops, op.wf = true) →
      (∀ op ∈ ops, ∀ a ∈ op.accounts, a ∈ L) →
      ∀ self : A1Token, LedgerInv self L → LedgerInv (ops.foldl stepOp self) L := by
  intro ops
  induction ops with
  | nil => intro _ _ self hinv; exact hinv
  | cons op rest ih =>
    intro hwf hacc self hinv
    rw [List.foldl_cons]
    exact ih (fun o ho => hwf o (List.mem_cons_of_mem op ho))
      (fun o ho => hacc o (List.mem_cons_of_mem op ho))
      (stepOp self op)
      (LedgerInv_stepOp self L op hL (hwf op (List.mem_cons_self op rest))
        (hacc op (List.mem_cons_self op rest)) hinv)

theorem appeared_nodup (creator : AccountId) (ops : List Op) :
    (appeared creator ops).Nodup :=
  List.nodup_dedup _

theorem mem_appeared_creator (creator : AccountId) (ops : List Op) :
    creator ∈ appeared creator ops := by
  simp [appeared]

theorem mem_appeared_of_op (creator : AccountId) (ops : List Op) (op : Op)
    (hop : op ∈ ops) : ∀ a ∈ op.accounts, a ∈ appeared creator ops := by
  intro a ha
  simp only [appeared, List.mem_dedup, List.mem_cons, List.mem_flatten]
  exact Or.inr ⟨op.accounts, List.mem_map_of_mem Op.accounts hop, ha⟩

theorem LedgerInv_new_token (creator : AccountId) (v : Nat) (hv : v < U32)
    (L : List AccountId) (hL : L.Nodup) (hc : creator ∈ L) :
    LedgerInv (new_token creator v) L := by
  constructor
  · have h1 : (new_token creator v).total_supply = v := rfl
    rw [h1, balSum_new_token creator v L hL hc, Nat.mod_eq_of_lt hv]
  · intro a ha
    rw [balance_of_new_token,
      if_neg (fun e : a = creator => ha (show a ∈ L from e.symm ▸ hc))]

theorem LedgerInv_execTrace (creator : AccountId) (initial_supply : Nat) (ops : List Op)
    (hs : initial_supply < U32) (hwf : ∀ op ∈ ops, op.wf = true) :
    LedgerInv (execTrace creator initial_supply ops) (appeared creator ops) := by
  unfold execTrace
  exact LedgerInv_foldl (appeared creator ops) (appeared_nodup creator ops) ops hwf
    (fun op hop => mem_appeared_of_op creator ops op hop)
    (new_token creator initial_supply)
    (LedgerInv_new_token creator initial_supply hs (appeared creator ops)
      (appeared_nodup creator ops) (mem_appeared_creator creator ops))

/-! ### Concrete states used by the witnesses -/

/-- A token constructed by account 0 with supply 1000. -/
def T0 : A1Token := new_token 0 1000

/-- T0 after account 0 approves spender 1 for 2000. -/
def Tap : A1Token := stepOp T0 (.approve 0 1 2000)

/-- A reachable state whose balances and supply sit at the u32 boundary:
account 0 creates the token with supply u32::MAX, sends everything to
account 1, then mints u32::MAX more to itself (which already wraps the
stored total_supply down to 4294967294). -/
def Tbig : A1Token := execTrace 0 4294967295 [.transfer 0 1 4294967295, .mint 0 4294967295]

/-! ### The claims -/

/-- C1, counterexample to the claim as stated: constructing with supply
u32::MAX, transferring the whole supply from 0 to 1 and then minting 5 is a
reachable trace after which total_supply() is 4 while the exact sum of
balance_of over the accounts that appeared is 4294967300: the mint wrapped
the stored supply modulo 2^32 but the mathematical sum kept growing. -/
theorem conservation_exact_fails :
    ¬ ((execTrace 0 4294967295 [.transfer 0 1 4294967295, .mint 0 5]).total_supply
        = balSum (execTrace 0 4294967295 [.transfer 0 1 4294967295, .mint 0 5])
            (appeared 0 [.transfer 0 1 4294967295, .mint 0 5])) := by
  decide

/-- C1 (amended): in every state reachable from new_token(initial_supply)
by any sequence of transfer, transfer_from_to, approve, transfer_from,
mint, burn and transfer_authority calls with u32 arguments, total_supply()
equals the sum of balance_of(a) over all accounts that ever appeared,
reduced modulo 2^32 (the equality is exact whenever no u32 addition
overflowed along the trace). -/
theorem conservation_mod (creator : AccountId) (initial_supply : Nat) (ops : List Op)
    (hs : initial_supply < U32) (hwf : ∀ op ∈ ops, op.wf = true) :
    (execTrace creator initial_supply ops).total_supply
      = balSum (execTrace creator initial_supply ops) (appeared creator ops) % U32 :=
  (LedgerInv_execTrace creator initial_supply ops hs hwf).1

/-- Witness for C1 (amended) at a concrete trace exercising every
operation. -/
theorem conservation_mod_witness :
    (execTrace 0 1000 [.transfer 0 1 250, .mint 0 500, .burn 1 50, .approve 0 1 100,
        .transfer_from 1 0 2 30, .transfer_authority 0 3, .transfer_from_to 9 0 1 10]).total_supply
      = balSum
          (execTrace 0 1000 [.transfer 0 1 250, .mint 0 500, .burn 1 50, .approve 0 1 100,
            .transfer_from 1 0 2 30, .transfer_authority 0 3, .transfer_from_to 9 0 1 10])
          (appeared 0 [.transfer 0 1 250, .mint 0 500, .burn 1 50, .approve 0 1 100,
            .transfer_from 1 0 2 30, .transfer_authority 0 3, .transfer_from_to 9 0 1 10]) % U32 :=
  conservation_mod 0 1000
    [.transfer 0 1 250, .mint 0 500, .burn 1 50, .approve 0 1 100,
      .transfer_from 1 0 2 30, .transfer_authority 0 3, .transfer_from_to 9 0 1 10]
    (by decide) (by decide)

/-- C2: the public transfer_from_to message performs no authorization or
allowance check: its result and state transition are identical for any two
caller identities, and it succeeds whenever balance_of(sender) is at least
the amount, debiting the sender and crediting the recipient (the credit
being the u32 addition of the source, i.e. taken modulo 2^32). -/
theorem transfer_from_to_caller_independent (self : A1Token) (c1 c2 s r : AccountId)
    (a : Nat) :
    Op.run self (.transfer_from_to c1 s r a) = Op.run self (.transfer_from_to c2 s r a)
    ∧ stepOp self (.transfer_from_to c1 s r a) = stepOp self (.transfer_from_to c2 s r a)
    ∧ (a ≤ self.balance_of s →
        ∃ next, self.transfer_from_to s r a = .ok next
          ∧ (s ≠ r → next.balance_of s = self.balance_of s - a
              ∧ next.balance_of r = (self.balance_of r + a) % U32)) := by
  refine ⟨rfl, rfl, ?_⟩
  intro ha
  obtain ⟨next, hok⟩ := transfer_from_to_isOk self s r a ha
  obtain ⟨-, hb, -, -, -⟩ := transfer_from_to_dest self next s r a hok
  refine ⟨next, hok, fun hsr => ⟨?_, ?_⟩⟩
  · rw [hb s, if_neg (fun e : s = r => hsr e), if_pos rfl]
  · rw [hb r, if_pos rfl, if_neg (fun e : r = s => hsr e.symm)]

/-- Witness for C2 at a concrete state and two distinct callers. -/
theorem transfer_from_to_caller_independent_witness :
    ∃ next, T0.transfer_from_to 0 1 250 = .ok next
      ∧ next.balance_of 0 = T0.balance_of 0 - 250
      ∧ next.balance_of 1 = (T0.balance_of 1 + 250) % U32 := by
  obtain ⟨next, hok, h⟩ :=
    (transfer_from_to_caller_independent T0 5 7 0 1 250).2.2 (by decide)
  obtain ⟨h1, h2⟩ := h (by decide)
  exact ⟨next, hok, h1, h2⟩

/-- C3: transfer fails with InsufficientBalance exactly when the caller
balance is below the amount, and a failing transfer leaves the whole state
unchanged; otherwise it succeeds, debits the caller and credits the
recipient (the credit being the u32 addition, modulo 2^32). -/
theorem transfer_spec (self : A1Token) (caller recipient : AccountId) (amount : Nat) :
    (self.balance_of caller < amount →
      self.transfer caller recipient amount = .error .InsufficientBalance
      ∧ stepOp self (.transfer caller recipient amount) = self)
    ∧ (amount ≤ self.balance_of caller →
      ∃ next, self.transfer caller recipient amount = .ok next
        ∧ (caller ≠ recipient →
            next.balance_of caller = self.balance_of caller - amount
            ∧ next.balance_of recipient = (self.balance_of recipient + amount) % U32)) := by
  constructor
  · intro h
    have herr : self.transfer caller recipient amount = .error .InsufficientBalance :=
      transfer_from_to_err self caller recipient amount h
    exact ⟨herr, stepOp_err self _ .InsufficientBalance (by simp only [Op.run]; exact herr)⟩
  · intro ha
    obtain ⟨next, hok⟩ := transfer_from_to_isOk self caller recipient amount ha
    obtain ⟨-, hb, -, -, -⟩ := transfer_from_to_dest self next caller recipient amount hok
    have hok2 : self.transfer caller recipient amount = .ok next := hok
    refine ⟨next, hok2, fun hne => ⟨?_, ?_⟩⟩
    · rw [hb caller, if_neg (fun e : caller = recipient => hne e), if_pos rfl]
    · rw [hb recipient, if_pos rfl, if_neg (fun e : recipient = caller => hne e.symm)]

/-- Witness for C3: a failing and a succeeding transfer on T0. -/
theorem transfer_spec_witness :
    (T0.transfer 1 2 5 = .error .InsufficientBalance
      ∧ stepOp T0 (.transfer 1 2 5) = T0)
    ∧ ∃ next, T0.transfer 0 1 250 = .ok next
        ∧ next.balance_of 0 = T0.balance_of 0 - 250
        ∧ next.balance_of 1 = (T0.balance_of 1 + 250) % U32 := by
  refine ⟨(transfer_spec T0 1 2 5).1 (by decide), ?_⟩
  obtain ⟨next, hok, h⟩ := (transfer_spec T0 0 1 250).2 (by decide)
  obtain ⟨h1, h2⟩ := h (by decide)
  exact ⟨next, hok, h1, h2⟩

/-- C4: every failing transfer_from leaves the entire state unchanged:
below-allowance calls fail with InsufficientAllowance, and calls that pass
the allowance check but not the balance check fail with
InsufficientBalance with the stored allowance untouched. -/
theorem transfer_from_failure_atomic (self : A1Token) (caller sender recipient : AccountId)
    (amount : Nat) :
    (self.allowance sender caller < amount →
      self.transfer_from caller sender recipient amount = .error .InsufficientAllowance
      ∧ stepOp self (.transfer_from caller sender recipient amount) = self)
    ∧ (amount ≤ self.allowance sender caller → self.balance_of sender < amount →
      self.transfer_from caller sender recipient amount = .error .InsufficientBalance
      ∧ stepOp self (.transfer_from caller sender recipient amount) = self
      ∧ (stepOp self (.transfer_from caller sender recipient amount)).allowance sender caller
          = self.allowance sender caller) := by
  constructor
  · intro h
    have herr := transfer_from_err_allowance self caller sender recipient amount h
    exact ⟨herr, stepOp_err self _ .InsufficientAllowance (by simp only [Op.run]; exact herr)⟩
  · intro hal hb
    have herr := transfer_from_err_balance self caller sender recipient amount hal hb
    have hstep : stepOp self (.transfer_from caller sender recipient amount) = self :=
      stepOp_err self _ .InsufficientBalance (by simp only [Op.run]; exact herr)
    exact ⟨herr, hstep, by rw [hstep]⟩

/-- Witness for C4: both failure modes on concrete states. -/
theorem transfer_from_failure_atomic_witness :
    (T0.transfer_from 1 0 2 5 = .error .InsufficientAllowance
      ∧ stepOp T0 (.transfer_from 1 0 2 5) = T0)
    ∧ (Tap.transfer_from 1 0 2 1500 = .error .InsufficientBalance
      ∧ stepOp Tap (.transfer_from 1 0 2 1500) = Tap
      ∧ (stepOp Tap (.transfer_from 1 0 2 1500)).allowance 0 1 = Tap.allowance 0 1) :=
  ⟨(transfer_from_failure_atomic T0 1 0 2 5).1 (by decide),
   (transfer_from_failure_atomic Tap 1 0 2 1500).2 (by decide) (by decide)⟩

/-- C5: a successful transfer_from with prior allowance L and sufficient
sender balance decrements the stored allowance to L - A, debits the sender
by A and credits the recipient by A (the credit being the u32 addition,
modulo 2^32). -/
theorem transfer_from_success_spec (self : A1Token) (caller sender recipient : AccountId)
    (amount : Nat) (hal : amount ≤ self.allowance sender caller)
    (hbal : amount ≤ self.balance_of sender) :
    ∃ next, self.transfer_from caller sender recipient amount = .ok next
      ∧ next.allowance sender caller = self.allowance sender caller - amount
      ∧ (sender ≠ recipient →
          next.balance_of sender = self.balance_of sender - amount
          ∧ next.balance_of recipient = (self.balance_of recipient + amount) % U32) := by
  obtain ⟨next, hok⟩ := transfer_from_isOk self caller sender recipient amount hal hbal
  obtain ⟨-, -, hb, hallow, -, -⟩ :=
    transfer_from_dest self next caller sender recipient amount hok
  refine ⟨next, hok, ?_, fun hne => ⟨?_, ?_⟩⟩
  · rw [hallow sender caller, if_pos rfl]
  · rw [hb sender, if_neg (fun e : sender = recipient => hne e), if_pos rfl]
  · rw [hb recipient, if_pos rfl, if_neg (fun e : recipient = sender => hne e.symm)]

/-- Witness for C5: spender 1 moves 60 of owner 0's funds to 2 on Tap. -/
theorem transfer_from_success_spec_witness :
    ∃ next, Tap.transfer_from 1 0 2 60 = .ok next
      ∧ next.allowance 0 1 = Tap.allowance 0 1 - 60
      ∧ next.balance_of 0 = Tap.balance_of 0 - 60
      ∧ next.balance_of 2 = (Tap.balance_of 2 + 60) % U32 := by
  obtain ⟨next, hok, hallow, h⟩ :=
    transfer_from_success_spec Tap 1 0 2 60 (by decide) (by decide)
  obtain ⟨h1, h2⟩ := h (by decide)
  exact ⟨next, hok, hallow, h1, h2⟩

/-- C6: mint fails with Unauthorized exactly when the caller is not the
mint authority (leaving the state unchanged), and on success credits the
caller's own balance and the total supply by the amount (u32 additions,
modulo 2^32) and touches no other account. -/
theorem mint_spec (self : A1Token) (caller : AccountId) (amount : Nat) :
    (caller ≠ self.mint_authority →
      self.mint caller amount = .error .Unauthorized
      ∧ stepOp self (.mint caller amount) = self)
    ∧ (caller = self.mint_authority →
      ∃ next, self.mint caller amount = .ok next
        ∧ next.balance_of caller = (self.balance_of caller + amount) % U32
        ∧ next.total_supply = (self.total_supply + amount) % U32
        ∧ ∀ b, b ≠ caller → next.balance_of b = self.balance_of b) := by
  constructor
  · intro h
    have herr := mint_err self caller amount h
    exact ⟨herr, stepOp_err self _ .Unauthorized (by simp only [Op.run]; exact herr)⟩
  · intro h
    obtain ⟨next, hok⟩ := mint_isOk self caller amount h
    obtain ⟨-, hb, hts, -, -⟩ := mint_dest self next caller amount hok
    refine ⟨next, hok, ?_, hts, ?_⟩
    · rw [hb caller, if_pos rfl]
    · intro b hbne
      rw [hb b, if_neg hbne]

/-- Witness for C6: unauthorized account 1 fails, authority 0 succeeds. -/
theorem mint_spec_witness :
    (T0.mint 1 5 = .error .Unauthorized ∧ stepOp T0 (.mint 1 5) = T0)
    ∧ ∃ next, T0.mint 0 500 = .ok next
        ∧ next.balance_of 0 = (T0.balance_of 0 + 500) % U32
        ∧ next.total_supply = (T0.total_supply + 500) % U32
        ∧ ∀ b, b ≠ 0 → next.balance_of b = T0.balance_of b :=
  ⟨(mint_spec T0 1 5).1 (by decide), (mint_spec T0 0 500).2 (by decide)⟩

/-- C7: transfer_authority fails with Unauthorized for any caller other
than the current authority; the current authority can set a new authority,
with immediate effect: afterwards get_current_authority reports the new
account and any mint or transfer_authority call by the old authority fails
with Unauthorized. -/
theorem transfer_authority_spec (self : A1Token) (caller new_owner : AccountId) :
    (caller ≠ self.mint_authority →
      self.transfer_authority caller new_owner = .error .Unauthorized
      ∧ stepOp self (.transfer_authority caller new_owner) = self)
    ∧ (caller = self.mint_authority →
      ∃ next, self.transfer_authority caller new_owner = .ok next
        ∧ next.get_current_authority = new_owner
        ∧ (new_owner ≠ caller →
            (∀ x, next.mint caller x = .error .Unauthorized)
            ∧ ∀ b, next.transfer_authority caller b = .error .Unauthorized)) := by
  constructor
  · intro h
    have herr := transfer_authority_err self caller new_owner h
    exact ⟨herr, stepOp_err self _ .Unauthorized (by simp only [Op.run]; exact herr)⟩
  · intro h
    obtain ⟨next, hok⟩ := transfer_authority_isOk self caller new_owner h
    obtain ⟨-, hau, -, -, -⟩ := transfer_authority_dest self next caller new_owner hok
    refine ⟨next, hok, hau, fun hne => ⟨?_, ?_⟩⟩
    · intro x
      exact mint_err next caller x (by rw [hau]; exact fun e => hne e.symm)
    · intro b
      exact transfer_authority_err next caller b (by rw [hau]; exact fun e => hne e.symm)

/-- Witness for C7: non-authority 1 fails; authority 0 hands over to 1 and
is locked out. -/
theorem transfer_authority_spec_witness :
    (T0.transfer_authority 1 2 = .error .Unauthorized
      ∧ stepOp T0 (.transfer_authority 1 2) = T0)
    ∧ ∃ next, T0.transfer_authority 0 1 = .ok next
        ∧ next.get_current_authority = 1
        ∧ (∀ x, next.mint 0 x = .error .Unauthorized)
        ∧ ∀ b, next.transfer_authority 0 b = .error .Unauthorized := by
  refine ⟨(transfer_authority_spec T0 1 2).1 (by decide), ?_⟩
  obtain ⟨next, hok, hau, h⟩ := (transfer_authority_spec T0 0 1).2 (by decide)
  obtain ⟨h1, h2⟩ := h (by decide)
  exact ⟨next, hok, hau, h1, h2⟩

/-- C8: approve always succeeds, and a second approve for the same
(owner, spender) pair overwrites rather than accumulates: after approving
X and then Y the stored allowance is exactly Y. -/
theorem approve_overwrite_spec (self : A1Token) (caller spender : AccountId) (X Y : Nat) :
    (∃ next, self.approve caller spender X = .ok next)
    ∧ (stepOp (stepOp self (.approve caller spender X)) (.approve caller spender Y)).allowance
        caller spender = Y := by
  refine ⟨approve_isOk self caller spender X, ?_⟩
  obtain ⟨n1, h1⟩ := approve_isOk self caller spender X
  have e1 : stepOp self (.approve caller spender X) = n1 :=
    stepOp_ok self n1 _ (by simp only [Op.run]; exact h1)
  obtain ⟨n2, h2⟩ := approve_isOk n1 caller spender Y
  have e2 : stepOp n1 (.approve caller spender Y) = n2 :=
    stepOp_ok n1 n2 _ (by simp only [Op.run]; exact h2)
  obtain ⟨ha2, -, -, -⟩ := approve_dest n1 n2 caller spender Y h2
  rw [e1, e2, ha2 caller spender, if_pos rfl]

/-- C9: self-transfer of any amount within balance and zero-amount
transfer to anyone succeed and leave every balance read unchanged, even
though the implementation writes the debited balance before reading the
recipient balance. -/
theorem transfer_self_and_zero_noop (self : A1Token) (a r : AccountId) (m : Nat)
    (ha : self.balance_of a < U32) (hr : self.balance_of r < U32)
    (hm : m ≤ self.balance_of a) :
    (∃ next, self.transfer a a m = .ok next
      ∧ ∀ b, next.balance_of b = self.balance_of b)
    ∧ (∃ next, self.transfer a r 0 = .ok next
      ∧ ∀ b, next.balance_of b = self.balance_of b) := by
  constructor
  · obtain ⟨next, hok⟩ := transfer_from_to_isOk self a a m hm
    obtain ⟨-, hb, -, -, -⟩ := transfer_from_to_dest self next a a m hok
    refine ⟨next, hok, ?_⟩
    intro b
    rw [hb b]
    by_cases hba : b = a
    · rw [if_pos hba, if_pos rfl, hba, Nat.sub_add_cancel hm, Nat.mod_eq_of_lt ha]
    · rw [if_neg hba, if_neg hba]
  · obtain ⟨next, hok⟩ := transfer_from_to_isOk self a r 0 (Nat.zero_le _)
    obtain ⟨-, hb, -, -, -⟩ := transfer_from_to_dest self next a r 0 hok
    refine ⟨next, hok, ?_⟩
    intro b
    rw [hb b]
    by_cases hbr : b = r
    · rw [if_pos hbr, hbr]
      by_cases hra : r = a
      · rw [if_pos hra, hra, Nat.sub_zero, Nat.add_zero, Nat.mod_eq_of_lt ha]
      · rw [if_neg hra, Nat.add_zero, Nat.mod_eq_of_lt hr]
    · rw [if_neg hbr]
      by_cases hba : b = a
      · rw [if_pos hba, Nat.sub_zero, hba]
      · rw [if_neg hba]

/-- Witness for C9: self-transfer of 250 and zero transfer on T0. -/
theorem transfer_self_and_zero_noop_witness :
    (∃ next, T0.transfer 0 0 250 = .ok next
      ∧ ∀ b, next.balance_of b = T0.balance_of b)
    ∧ (∃ next, T0.transfer 0 1 0 = .ok next
      ∧ ∀ b, next.balance_of b = T0.balance_of b) :=
  transfer_self_and_zero_noop T0 0 1 250 (by decide) (by decide) (by decide)

/-- C10: the credit and supply additions are unchecked u32 arithmetic:
when the recipient balance plus the amount reaches 2^32, a successful
transfer_from_to stores the sum reduced modulo 2^32 (strictly below the
mathematical sum), and a mint that overflows the supply stores supply and
authority balance reduced modulo 2^32 likewise. -/
theorem arithmetic_wraps_mod_u32 (self : A1Token) (s r caller : AccountId) (a m : Nat) :
    (s ≠ r → a ≤ self.balance_of s → U32 ≤ self.balance_of r + a →
      ∃ next, self.transfer_from_to s r a = .ok next
        ∧ next.balance_of r = (self.balance_of r + a) % U32
        ∧ next.balance_of r < self.balance_of r + a)
    ∧ (caller = self.mint_authority → U32 ≤ self.total_supply + m →
      ∃ next, self.mint caller m = .ok next
        ∧ next.total_supply = (self.total_supply + m) % U32
        ∧ next.total_supply < self.total_supply + m
        ∧ next.balance_of caller = (self.balance_of caller + m) % U32) := by
  constructor
  · intro hsr hbal hover
    obtain ⟨next, hok⟩ := transfer_from_to_isOk self s r a hbal
    obtain ⟨-, hb, -, -, -⟩ := transfer_from_to_dest self next s r a hok
    have hr2 : next.balance_of r = (self.balance_of r + a) % U32 := by
      rw [hb r, if_pos rfl, if_neg (fun e : r = s => hsr e.symm)]
    refine ⟨next, hok, hr2, ?_⟩
    rw [hr2]
    calc (self.balance_of r + a) % U32 < U32 := Nat.mod_lt _ (by decide)
      _ ≤ self.balance_of r + a := hover
  · intro hauth hover
    obtain ⟨next, hok⟩ := mint_isOk self caller m hauth
    obtain ⟨-, hb, hts, -, -⟩ := mint_dest self next caller m hok
    refine ⟨next, hok, hts, ?_, ?_⟩
    · rw [hts]
      calc (self.total_supply + m) % U32 < U32 := Nat.mod_lt _ (by decide)
        _ ≤ self.total_supply + m := hover
    · rw [hb caller, if_pos rfl]

/-- Witness for C10 at the reachable boundary state Tbig: a successful
transfer loses 2^32 units relative to exact arithmetic, and a mint of 2
wraps the supply. -/
theorem arithmetic_wraps_mod_u32_witness :
    (∃ next, Tbig.transfer_from_to 0 1 4294967295 = .ok next
      ∧ next.balance_of 1 = (Tbig.balance_of 1 + 4294967295) % U32
      ∧ next.balance_of 1 < Tbig.balance_of 1 + 4294967295)
    ∧ (∃ next, Tbig.mint 0 2 = .ok next
      ∧ next.total_supply = (Tbig.total_supply + 2) % U32
      ∧ next.total_supply < Tbig.total_supply + 2
      ∧ next.balance_of 0 = (Tbig.balance_of 0 + 2) % U32) :=
  ⟨(arithmetic_wraps_mod_u32 Tbig 0 1 0 4294967295 2).1 (by decide) (by decide) (by decide),
   (arithmetic_wraps_mod_u32 Tbig 0 1 0 4294967295 2).2 (by decide) (by decide)⟩
